import Mathlib

/-!
# Verification of the HT16K33 seven-segment display driver

A shallow embedding of the Go driver for the HT16K33 LED controller
(package `ht16k33`), which drives two 8-digit 7-segment displays through
one 16-byte display-RAM buffer, together with proofs of the specified
properties.

Modelling conventions:
* Machine bytes (`byte`/`uint8`) are `Nat`, with wrapping made explicit
  (`% 256`) where the Go code converts between integer widths.
* Go `int` arguments (display / position indices) are `Int`, so that the
  negative-argument bounds checks of the source are preserved.
* The display buffer `[16]byte` is a `List Nat` of length 16; reads are
  `getD _ 0` and writes are `List.set`, mirroring the source's index
  arithmetic (all indices used by the source are in range).
* The I2C bus (`I2CBus.Tx`) is an external collaborator: it is a function
  from the address and written bytes to an optional error code.  Each
  driver operation that touches the bus takes the bus as an argument and
  additionally returns the list of writes it performed, so that theorems
  can talk about what was handed to the transport.  As in the Go source,
  the value returned by `Tx` is bound and then discarded.
* `time.Time` / `time.Duration` are `Int` (nanosecond counts); the
  non-blocking fade functions take the current time as an argument, and
  `time.Sleep` (real time only, no state change) is dropped.
-/

set_option autoImplicit false

namespace HT16K33

/-- Command byte for oscillator enable (from the Go constant block). -/
def ht16k33TurnOnOscillator : Nat := 0x21

/-- Display-on command byte. -/
def ht16k33TurnOnDisplay : Nat := 0x81

/-- Brightness command base byte. -/
def ht16k33SetBrightness : Nat := 0xE0

/-- Number of 7-segment digits per display unit. -/
def MaxDigitsPerDisplay : Nat := 8

/-- Number of display units driven by one HT16K33. -/
def NumDisplays : Nat := 2

/-- Index used by the Go code for a blank digit. -/
def blankPatternIndex : Nat := 10

/-- The display RAM buffer (`[16]byte` in Go) as a list of byte values. -/
abbrev Buf := List Nat

/-- Read one cell of the buffer (`d.buffer[i]`). -/
def readB (b : Buf) (i : Nat) : Nat := b.getD i 0

/-- Write one cell of the buffer (`d.buffer[i] = v`). -/
def writeB (b : Buf) (i : Nat) (v : Nat) : Buf := b.set i v

/-- The 7-segment font map of the source (`var font = map[rune]byte`),
mapping a character to its `g f e d c b a` segment pattern; characters
not in the map yield `none`. -/
def font (c : Char) : Option Nat :=
  match c with
  | '0' => some 0b00111111
  | '1' => some 0b00000110
  | '2' => some 0b01011011
  | '3' => some 0b01001111
  | '4' => some 0b01100110
  | '5' => some 0b01101101
  | '6' => some 0b01111101
  | '7' => some 0b00000111
  | '8' => some 0b01111111
  | '9' => some 0b01101111
  | 'A' => some 0b01110111
  | 'B' => some 0b01111100
  | 'C' => some 0b00111001
  | 'D' => some 0b01011110
  | 'E' => some 0b01111001
  | 'F' => some 0b01110001
  | 'G' => some 0b00111101
  | 'H' => some 0b01110110
  | 'I' => some 0b00000110
  | 'J' => some 0b00011110
  | 'L' => some 0b00111000
  | 'O' => some 0b00111111
  | 'P' => some 0b01110011
  | 'Q' => some 0b01100111
  | 'R' => some 0b01010000
  | 'S' => some 0b01101101
  | 'U' => some 0b00111110
  | 'Y' => some 0b01101110
  | ' ' => some 0b00000000
  | '-' => some 0b01000000
  | '_' => some 0b00001000
  | '\'' => some 0b00000010
  | '"' => some 0b00100010
  | '=' => some 0b01001000
  | '?' => some 0b01010011
  | _ => none

/-- One iteration of the clear loop of `SetDigitOnDisplay`/`setPattern`:
`d.buffer[rowOffset+i] &= mask`. -/
def clearStep (mask rowOffset : Nat) (i : Nat) (b : Buf) : Buf :=
  writeB b (rowOffset + i) (readB b (rowOffset + i) &&& mask)

/-- One iteration of the segment loop:
`if (pattern>>seg)&1 == 1 { d.buffer[rowOffset+seg] |= (1 << position) }`. -/
def segStep (pattern pbit rowOffset : Nat) (seg : Nat) (b : Buf) : Buf :=
  if (pattern >>> seg) &&& 1 = 1 then
    writeB b (rowOffset + seg) (readB b (rowOffset + seg) ||| pbit)
  else b

/-- The digit-writing block shared verbatim by `SetDigitOnDisplay` and
`setPattern` in the source: clear bit `position` of all 8 rows of the
display block at `rowOffset`, set it in rows 0-6 according to `pattern`,
and set it in row 7 iff `dot`.  `p` is the (already validated, 0-7)
digit position; the mask is the byte complement `^byte(1 << position)`. -/
def digitCore (buf : Buf) (rowOffset p : Nat) (pattern : Nat) (dot : Bool) : Buf :=
  let pbit := 1 <<< p
  let mask := 255 ^^^ pbit
  let b1 := (List.range MaxDigitsPerDisplay).foldl (fun b i => clearStep mask rowOffset i b) buf
  let b2 := (List.range 7).foldl (fun b seg => segStep pattern pbit rowOffset seg b) b1
  if dot then writeB b2 (rowOffset + 7) (readB b2 (rowOffset + 7) ||| pbit) else b2

/-- `setPattern` (buffer part): directly set a segment pattern at a
position, after the silent bounds check of the source. -/
def setPattern (buf : Buf) (display position : Int) (pattern : Nat) (dot : Bool) : Buf :=
  if display < 0 ∨ display ≥ (NumDisplays : Int) ∨ position < 0 ∨ position ≥ (MaxDigitsPerDisplay : Int) then
    buf
  else
    digitCore buf (display.toNat * MaxDigitsPerDisplay) position.toNat pattern dot

/-- `SetDigitOnDisplay` (buffer part): bounds check, then map `num` to a
character (`rune('0' + num)`, byte arithmetic) and look up its pattern
with blank default, then the shared digit-writing block. -/
def setDigitOnDisplay (buf : Buf) (display position : Int) (num : Nat) (dot : Bool) : Buf :=
  if display < 0 ∨ display ≥ (NumDisplays : Int) ∨ position < 0 ∨ position ≥ (MaxDigitsPerDisplay : Int) then
    buf
  else
    let char := Char.ofNat ((48 + num) % 256)
    let pattern := (font char).getD 0
    digitCore buf (display.toNat * MaxDigitsPerDisplay) position.toNat pattern dot

/-- `SetDigit16` (buffer part): treat the two displays as one 16-digit
display; out-of-range positions are a silent no-op. -/
def setDigit16 (buf : Buf) (position : Int) (num : Nat) (dot : Bool) : Buf :=
  if position < 0 ∨ position ≥ (MaxDigitsPerDisplay : Int) * (NumDisplays : Int) then
    buf
  else
    setDigitOnDisplay buf (position / (MaxDigitsPerDisplay : Int))
      (position % (MaxDigitsPerDisplay : Int)) num dot

/-- `ClearOnDisplay` (buffer part): write a blank digit at all 8
positions of one display. -/
def clearOnDisplay (buf : Buf) (display : Int) : Buf :=
  if display < 0 ∨ display ≥ (NumDisplays : Int) then buf
  else
    (List.range MaxDigitsPerDisplay).foldl
      (fun b pos => setDigitOnDisplay b display (Int.ofNat pos) blankPatternIndex false) buf

/-- `ClearAll` (buffer part): zero every byte of the buffer. -/
def clearAllBuf (buf : Buf) : Buf :=
  (List.range 16).foldl (fun b i => writeB b i 0) buf

/-- `LightUpAll` (buffer part): set every byte of the buffer to `0xFF`. -/
def lightUpAllBuf (buf : Buf) : Buf :=
  (List.range 16).foldl (fun b i => writeB b i 0xFF) buf

/-- Go's case folding in `WriteString`:
`if char >= 'a' && char <= 'z' { char = char - 'a' + 'A' }`. -/
def foldUpper (c : Char) : Char :=
  if 'a' ≤ c ∧ c ≤ 'z' then Char.ofNat (c.toNat - 97 + 65) else c

/-- The scanning loop of `WriteString`: each character found in the font
consumes one digit slot (stopping at 8 slots); a `'.'` immediately after
a recognized character sets that digit's dot without consuming a slot;
unrecognized characters are skipped. -/
def writeLoop (display : Int) : List Char → Buf → Nat → Buf
  | [], buf, _ => buf
  | [c], buf, digitPos =>
    if digitPos < MaxDigitsPerDisplay then
      match font (foldUpper c) with
      | some pattern => setPattern buf display (Int.ofNat digitPos) pattern false
      | none => buf
    else buf
  | c :: r :: rest2, buf, digitPos =>
    if digitPos < MaxDigitsPerDisplay then
      match font (foldUpper c) with
      | some pattern =>
        if r = '.' then
          writeLoop display rest2 (setPattern buf display (Int.ofNat digitPos) pattern true) (digitPos + 1)
        else
          writeLoop display (r :: rest2) (setPattern buf display (Int.ofNat digitPos) pattern false) (digitPos + 1)
      | none => writeLoop display (r :: rest2) buf digitPos
    else buf

/-- `WriteString` (buffer part): clear the target display, then scan the
string writing recognized characters with dot lookahead. -/
def writeString (buf : Buf) (display : Int) (s : List Char) : Buf :=
  if display < 0 ∨ display ≥ (NumDisplays : Int) then buf
  else writeLoop display s (clearOnDisplay buf display) 0

/-! ## The device: state, bus operations and the fade controller -/

/-- The non-blocking fade state (`fadeState` in Go:
`fadeStateIdle`, `fadeStateOut`, `fadeStateIn`). -/
inductive FadeState where
  | idle
  | fadingOut
  | fadingIn
  deriving Repr, DecidableEq

/-- One bus write: the 7-bit address and the bytes handed to `Tx`. -/
abbrev Msg := Nat × List Nat

/-- The abstract transport (`I2CBus.Tx`): given address and bytes it
returns `none` on success or `some code` on error.  The driver never
reads from the bus (`r` is always `nil` in the source). -/
abbrev Bus := Nat → List Nat → Option Nat

/-- The `Device` struct.  `bus` is not a field here: the operations that
touch the bus take it as an argument instead, and also return the list
of writes they attempted. -/
structure Device where
  Address : Nat
  buffer : Buf
  currentBrightness : Nat
  fadeState : FadeState
  fadeStep : Int
  lastUpdateTime : Int
  fadeDelay : Int
  deriving Repr, DecidableEq

/-- `New`: fresh device with maximum brightness and idle fade state; the
remaining fields take Go's zero values. -/
def New (address : Nat) : Device :=
  { Address := address
    buffer := List.replicate 16 0
    currentBrightness := 15
    fadeState := FadeState.idle
    fadeStep := 0
    lastUpdateTime := 0
    fadeDelay := 0 }

/-- `SetBrightness`: clamp to 15, store, and write one command byte
(`ht16k33SetBrightness | brightness`). -/
def SetBrightness (bus : Bus) (d : Device) (brightness : Nat) : Device × List Msg :=
  let b := if brightness > 15 then 15 else brightness
  let w := [ht16k33SetBrightness ||| b]
  let _err := bus d.Address w
  ({ d with currentBrightness := b }, [(d.Address, w)])

/-- `Display`: flush the 16-byte buffer prefixed with the display-RAM
start address `0x00` as one write. -/
def Display (bus : Bus) (d : Device) : Device × List Msg :=
  let data := 0x00 :: d.buffer
  let _err := bus d.Address data
  (d, [(d.Address, data)])

/-- `Configure`: oscillator on, display on, brightness to maximum. -/
def Configure (bus : Bus) (d : Device) : Device × List Msg :=
  let _e1 := bus d.Address [ht16k33TurnOnOscillator]
  let _e2 := bus d.Address [ht16k33TurnOnDisplay]
  let r := SetBrightness bus d 15
  (r.1, (d.Address, [ht16k33TurnOnOscillator]) :: (d.Address, [ht16k33TurnOnDisplay]) :: r.2)

/-- `ClearAll` on the device. -/
def ClearAll (d : Device) : Device :=
  { d with buffer := clearAllBuf d.buffer }

/-- `SetDigitOnDisplay` on the device. -/
def SetDigitOnDisplay (d : Device) (display position : Int) (num : Nat) (dot : Bool) : Device :=
  { d with buffer := setDigitOnDisplay d.buffer display position num dot }

/-- `SetDigit16` on the device. -/
def SetDigit16 (d : Device) (position : Int) (num : Nat) (dot : Bool) : Device :=
  { d with buffer := setDigit16 d.buffer position num dot }

/-- `ClearOnDisplay` on the device. -/
def ClearOnDisplay (d : Device) (display : Int) : Device :=
  { d with buffer := clearOnDisplay d.buffer display }

/-- `WriteString` on the device. -/
def WriteString (d : Device) (display : Int) (s : List Char) : Device :=
  { d with buffer := writeString d.buffer display s }

/-- `LightUpAll` on the device. -/
def LightUpAll (d : Device) : Device :=
  { d with buffer := lightUpAllBuf d.buffer }

/-- One brightness step inside a blocking-fade loop: do `SetBrightness`
and append its write to the trace (the `time.Sleep` between steps is
real time only and is dropped). -/
def sbStep (bus : Bus) (p : Device × List Msg) (k : Nat) : Device × List Msg :=
  let r := SetBrightness bus p.1 k
  (r.1, p.2 ++ r.2)

/-- The brightness levels of the fade-out loop
`for i := int(d.currentBrightness); i >= 0; i--`: `n, n-1, ..., 0`. -/
def fadeOutLevels (n : Nat) : List Nat :=
  (List.range (n + 1)).map (fun k => n - k)

/-- `DisplayFadeBlocking`: fade out from the current brightness to 0,
flush the buffer, fade in 0..15, then pin brightness at 15. -/
def DisplayFadeBlocking (bus : Bus) (d : Device) : Device × List Msg :=
  let p1 := (fadeOutLevels d.currentBrightness).foldl (sbStep bus) (d, [])
  let p2 := Display bus p1.1
  let p3 := (List.range 16).foldl (sbStep bus) (p2.1, [])
  let p4 := SetBrightness bus p3.1 15
  (p4.1, p1.2 ++ p2.2 ++ p3.2 ++ p4.2)

/-- `LightUpAllFadeBlocking`: fill the buffer and ramp brightness 0..15
(the source performs no flush here). -/
def LightUpAllFadeBlocking (bus : Bus) (d : Device) : Device × List Msg :=
  (List.range 16).foldl (sbStep bus) (LightUpAll d, [])

/-- `ClearFadeOnDisplayBlocking`. -/
def ClearFadeOnDisplayBlocking (bus : Bus) (d : Device) (display : Int) : Device × List Msg :=
  if display < 0 ∨ display ≥ (NumDisplays : Int) then (d, [])
  else DisplayFadeBlocking bus (ClearOnDisplay d display)

/-- `ClearAllFadeBlocking`. -/
def ClearAllFadeBlocking (bus : Bus) (d : Device) : Device × List Msg :=
  DisplayFadeBlocking bus (ClearAll d)

/-- `IsFading`. -/
def IsFading (d : Device) : Bool :=
  decide (d.fadeState ≠ FadeState.idle)

/-- `StartFade`: arm the non-blocking fade (no-op unless idle); `now` is
what `time.Now()` returned. -/
def StartFade (now delay : Int) (d : Device) : Device :=
  if d.fadeState ≠ FadeState.idle then d
  else
    { d with
        fadeDelay := delay
        fadeState := FadeState.fadingOut
        fadeStep := (d.currentBrightness : Int)
        lastUpdateTime := now }

/-- Go's `uint8(i)` conversion of an `int`: the low 8 bits. -/
def uint8ofInt (i : Int) : Nat := (i % 256).toNat

/-- `UpdateFade`: one poll of the non-blocking fade; `now` is what
`time.Now()`/`time.Since` observed.  Returns the device, the writes
performed, and the `IsFading` result. -/
def UpdateFade (bus : Bus) (now : Int) (d : Device) : Device × List Msg × Bool :=
  if d.fadeState = FadeState.idle ∨ now - d.lastUpdateTime < d.fadeDelay then
    (d, [], IsFading d)
  else
    let d0 := { d with lastUpdateTime := now }
    match d0.fadeState with
    | FadeState.fadingOut =>
      let r := SetBrightness bus d0 (uint8ofInt d0.fadeStep)
      let d1 := { r.1 with fadeStep := r.1.fadeStep - 1 }
      if d1.fadeStep < 0 then
        let r2 := Display bus d1
        let d2 := { r2.1 with fadeState := FadeState.fadingIn, fadeStep := 0 }
        (d2, r.2 ++ r2.2, IsFading d2)
      else (d1, r.2, IsFading d1)
    | FadeState.fadingIn =>
      let r := SetBrightness bus d0 (uint8ofInt d0.fadeStep)
      let d1 := { r.1 with fadeStep := r.1.fadeStep + 1 }
      if d1.fadeStep > 15 then
        let d2 := { d1 with fadeState := FadeState.idle }
        (d2, r.2, IsFading d2)
      else (d1, r.2, IsFading d1)
    | FadeState.idle => (d0, [], IsFading d0)

/-- `tick` times spaced at least `delay` apart, starting after `last`. -/
def spacedB (last delay : Int) : List Int → Bool
  | [] => true
  | t :: ts => (decide (last + delay ≤ t) && spacedB t delay ts)

/-- Run `UpdateFade` at each time in `ts` in order (the caller's poll
loop), collecting all writes. -/
def runTicks (bus : Bus) : List Int → Device → Device × List Msg
  | [], d => (d, [])
  | t :: ts, d =>
    let r := UpdateFade bus t d
    let rest := runTicks bus ts r.1
    (rest.1, r.2.1 ++ rest.2)

/-- One public driver operation (used to state sequences of calls). -/
inductive Op where
  | configure
  | display
  | setBrightness (level : Nat)
  | displayFadeBlocking
  | lightUpAllFadeBlocking
  | clearFadeOnDisplayBlocking (display : Int)
  | clearAllFadeBlocking
  | startFade (now delay : Int)
  | updateFade (now : Int)
  | clearAll
  | lightUpAll
  | clearOnDisplay (display : Int)
  | setDigitOnDisplay (display position : Int) (num : Nat) (dot : Bool)
  | setDigit16 (position : Int) (num : Nat) (dot : Bool)
  | writeString (display : Int) (s : List Char)

/-- Apply one public operation to the device (discarding the trace). -/
def applyOp (bus : Bus) (d : Device) : Op → Device
  | Op.configure => (Configure bus d).1
  | Op.display => (Display bus d).1
  | Op.setBrightness level => (SetBrightness bus d level).1
  | Op.displayFadeBlocking => (DisplayFadeBlocking bus d).1
  | Op.lightUpAllFadeBlocking => (LightUpAllFadeBlocking bus d).1
  | Op.clearFadeOnDisplayBlocking disp => (ClearFadeOnDisplayBlocking bus d disp).1
  | Op.clearAllFadeBlocking => (ClearAllFadeBlocking bus d).1
  | Op.startFade now delay => StartFade now delay d
  | Op.updateFade now => (UpdateFade bus now d).1
  | Op.clearAll => ClearAll d
  | Op.lightUpAll => LightUpAll d
  | Op.clearOnDisplay disp => ClearOnDisplay d disp
  | Op.setDigitOnDisplay disp pos num dot => SetDigitOnDisplay d disp pos num dot
  | Op.setDigit16 pos num dot => SetDigit16 d pos num dot
  | Op.writeString disp s => WriteString d disp s

/-- A transport whose writes always succeed. -/
def busOk : Bus := fun _ _ => none

/-- A transport whose writes always fail with error code 1. -/
def busFail : Bus := fun _ _ => some 1

/-! ## Pointwise reading lemmas for the buffer codec -/

theorem readB_writeB (b : Buf) (i v j : Nat) :
    readB (writeB b i v) j = if i = j ∧ j < b.length then v else readB b j := by
  simp only [readB, writeB, List.getD_eq_getElem?_getD, List.getElem?_set]
  by_cases h1 : i = j
  · subst h1
    by_cases h2 : i < b.length <;> simp [h2, List.getElem?_eq_none, Nat.le_of_not_lt]
  · simp [h1]

theorem length_writeB (b : Buf) (i v : Nat) : (writeB b i v).length = b.length :=
  List.length_set b i v

theorem length_foldl_of (F : Nat → Buf → Buf) (hlen : ∀ i b, (F i b).length = b.length) :
    ∀ (l : List Nat) (b : Buf), (l.foldl (fun b i => F i b) b).length = b.length := by
  intro l
  induction l with
  | nil => intro b; rfl
  | cons x xs ihl => intro b; rw [List.foldl_cons, ihl, hlen]

/-- Pointwise description of a left fold of index-local buffer operations
over `List.range n`: `F i` only changes the cell `off + i`, and its
effect there depends only on that cell's value (and the length). -/
theorem foldl_local (F : Nat → Buf → Buf) (off : Nat)
    (hlen : ∀ i b, (F i b).length = b.length)
    (h1 : ∀ i b j, j ≠ off + i → readB (F i b) j = readB b j)
    (h2 : ∀ i b c, c.length = b.length → readB c (off + i) = readB b (off + i) →
      readB (F i c) (off + i) = readB (F i b) (off + i)) :
    ∀ (n : Nat) (buf : Buf) (j : Nat),
      readB ((List.range n).foldl (fun b i => F i b) buf) j
        = if off ≤ j ∧ j < off + n then readB (F (j - off) buf) j else readB buf j := by
  intro n
  induction n with
  | zero =>
    intro buf j
    rw [List.range_zero, List.foldl_nil, if_neg (by omega)]
  | succ m ih =>
    intro buf j
    rw [List.range_succ, List.foldl_append]
    simp only [List.foldl_cons, List.foldl_nil]
    by_cases hj : j = off + m
    · subst hj
      have hprev : readB ((List.range m).foldl (fun b i => F i b) buf) (off + m) = readB buf (off + m) := by
        rw [ih buf (off + m), if_neg (by omega)]
      have hlen2 : ((List.range m).foldl (fun b i => F i b) buf).length = buf.length :=
        length_foldl_of F hlen _ _
      rw [h2 m buf _ hlen2 hprev, if_pos ⟨by omega, by omega⟩]
      have hm : off + m - off = m := by omega
      rw [hm]
    · rw [h1 m _ _ hj, ih buf j]
      by_cases hcond : off ≤ j ∧ j < off + m
      · rw [if_pos hcond, if_pos ⟨hcond.1, by omega⟩]
      · rw [if_neg hcond, if_neg (by omega)]

/-! ## Per-cell effect of the digit-writing block -/

theorem length_clearStep (mask off i : Nat) (b : Buf) : (clearStep mask off i b).length = b.length :=
  length_writeB ..

theorem length_segStep (pattern pbit off seg : Nat) (b : Buf) :
    (segStep pattern pbit off seg b).length = b.length := by
  unfold segStep
  split
  · exact length_writeB ..
  · rfl

theorem length_digitCore (buf : Buf) (off p pattern : Nat) (dot : Bool) :
    (digitCore buf off p pattern dot).length = buf.length := by
  unfold digitCore
  split
  · rw [length_writeB, length_foldl_of _ (fun i b => length_segStep ..),
      length_foldl_of _ (fun i b => length_clearStep ..)]
  · rw [length_foldl_of _ (fun i b => length_segStep ..),
      length_foldl_of _ (fun i b => length_clearStep ..)]

/-- The per-cell effect of `digitCore` on a buffer large enough to hold
the addressed display block (in the driver the buffer always has 16
cells and `rowOffset + 8 ≤ 16`). -/
theorem readB_digitCore (buf : Buf) (off p pattern : Nat) (dot : Bool)
    (hL : off + 8 ≤ buf.length) (j : Nat) :
    readB (digitCore buf off p pattern dot) j =
      if off ≤ j ∧ j < off + 8 then
        (if j < off + 7 then
          (if (pattern >>> (j - off)) &&& 1 = 1 then
            (readB buf j &&& (255 ^^^ (1 <<< p))) ||| (1 <<< p)
           else readB buf j &&& (255 ^^^ (1 <<< p)))
         else
          (if dot then (readB buf j &&& (255 ^^^ (1 <<< p))) ||| (1 <<< p)
           else readB buf j &&& (255 ^^^ (1 <<< p))))
      else readB buf j := by
  simp only [digitCore]
  have hclear := foldl_local (fun i b => clearStep (255 ^^^ (1 <<< p)) off i b) off
    (fun i b => length_clearStep ..)
    (by
      intro i b j hj
      simp only [clearStep]
      rw [readB_writeB, if_neg (by omega)])
    (by
      intro i b c hlen hread
      simp only [clearStep]
      rw [readB_writeB, readB_writeB, hread, hlen])
    MaxDigitsPerDisplay buf
  have hlen1 : ((List.range MaxDigitsPerDisplay).foldl
      (fun b i => clearStep (255 ^^^ (1 <<< p)) off i b) buf).length = buf.length :=
    length_foldl_of _ (fun i b => length_clearStep ..) _ _
  set b1 := (List.range MaxDigitsPerDisplay).foldl
      (fun b i => clearStep (255 ^^^ (1 <<< p)) off i b) buf with hb1
  have hread1 : ∀ j, readB b1 j =
      if off ≤ j ∧ j < off + 8 then readB buf j &&& (255 ^^^ (1 <<< p)) else readB buf j := by
    intro j
    rw [hclear j]
    by_cases hc : off ≤ j ∧ j < off + MaxDigitsPerDisplay
    · rw [if_pos hc, if_pos (by simpa [MaxDigitsPerDisplay] using hc)]
      simp only [clearStep]
      rw [readB_writeB]
      have hoj : off + (j - off) = j := by omega
      rw [hoj, if_pos ⟨rfl, by simp [MaxDigitsPerDisplay] at hc; omega⟩]
    · rw [if_neg hc, if_neg (by simpa [MaxDigitsPerDisplay] using hc)]
  have hseg := foldl_local (fun s b => segStep pattern (1 <<< p) off s b) off
    (fun i b => length_segStep ..)
    (by
      intro i b j hj
      simp only [segStep]
      split
      · rw [readB_writeB, if_neg (by omega)]
      · rfl)
    (by
      intro i b c hlen hread
      simp only [segStep]
      split
      · rw [readB_writeB, readB_writeB, hread, hlen]
      · exact hread)
    7 b1
  have hlen2 : ((List.range 7).foldl (fun b s => segStep pattern (1 <<< p) off s b) b1).length = b1.length :=
    length_foldl_of _ (fun i b => length_segStep ..) _ _
  set b2 := (List.range 7).foldl (fun b s => segStep pattern (1 <<< p) off s b) b1 with hb2
  have hread2 : ∀ j, readB b2 j =
      if off ≤ j ∧ j < off + 7 then
        (if (pattern >>> (j - off)) &&& 1 = 1 then readB b1 j ||| (1 <<< p) else readB b1 j)
      else readB b1 j := by
    intro j
    rw [hseg j]
    by_cases hc : off ≤ j ∧ j < off + 7
    · rw [if_pos hc, if_pos hc]
      simp only [segStep]
      have hoj : off + (j - off) = j := by omega
      split
      · rw [readB_writeB, hoj, if_pos ⟨rfl, by rw [hlen1]; omega⟩]
      · rfl
    · rw [if_neg hc, if_neg hc]
  cases dot with
  | true =>
    simp only [eq_self_iff_true, if_true]
    rw [readB_writeB, hlen2, hlen1]
    by_cases hj : off + 7 = j ∧ j < buf.length
    · rw [if_pos hj]
      obtain ⟨hj1, hj2⟩ := hj
      subst hj1
      simp only [hread2, hread1]
      split_ifs <;> first | rfl | omega
    · rw [if_neg hj]
      simp only [hread2, hread1]
      split_ifs <;> first | rfl | omega
  | false =>
    simp only [Bool.false_eq_true, if_false]
    simp only [hread2, hread1]
    split_ifs <;> first | rfl | omega

/-! ## Byte-level algebra of clear-then-set -/

/-- The position bit is disjoint from its clearing mask (for in-range positions). -/
theorem pbit_and_mask (p : Nat) (hp : p < 8) : (1 <<< p) &&& (255 ^^^ (1 <<< p)) = 0 := by
  interval_cases p <;> rfl

theorem or_and_cancel (v m s : Nat) (h : s &&& m = 0) :
    ((v &&& m) ||| s) &&& m = v &&& m := by
  apply Nat.eq_of_testBit_eq
  intro i
  have hs : (s.testBit i && m.testBit i) = false := by
    rw [← Nat.testBit_and, h, Nat.zero_testBit]
  simp only [Nat.testBit_and, Nat.testBit_or]
  cases hv : (v.testBit i) <;> cases hm : (m.testBit i) <;> simp_all

theorem and_mask_self (v m : Nat) : (v &&& m) &&& m = v &&& m := by
  rw [Nat.and_assoc, Nat.and_self]

/-- Two buffers with equal lengths and equal `readB` at every index are equal. -/
theorem buf_eq_of_readB_eq (l1 l2 : Buf) (hl : l1.length = l2.length)
    (hr : ∀ j, readB l1 j = readB l2 j) : l1 = l2 := by
  apply List.ext_getElem hl
  intro n h1 h2
  have e1 : readB l1 n = l1[n] := by
    simp [readB, List.getD_eq_getElem?_getD, List.getElem?_eq_getElem h1]
  have e2 : readB l2 n = l2[n] := by
    simp [readB, List.getD_eq_getElem?_getD, List.getElem?_eq_getElem h2]
  rw [← e1, ← e2, hr]

theorem length_lightUpAllBuf (buf : Buf) : (lightUpAllBuf buf).length = buf.length :=
  length_foldl_of _ (fun i b => length_writeB b i 0xFF) _ _

theorem lightUpAllBuf_eq (buf : Buf) (hbuf : buf.length = 16) :
    lightUpAllBuf buf = List.replicate 16 0xFF := by
  have h := foldl_local (fun i b => writeB b i 0xFF) 0
    (fun i b => length_writeB b i 0xFF)
    (by
      intro i b j hj
      rw [readB_writeB, if_neg (by omega)])
    (by
      intro i b c hlen hread
      rw [readB_writeB, readB_writeB, hlen, hread])
    16 buf
  apply buf_eq_of_readB_eq
  · rw [length_lightUpAllBuf, hbuf, List.length_replicate]
  · intro j
    rw [lightUpAllBuf, h j]
    by_cases hc : j < 16
    · rw [if_pos ⟨by omega, by omega⟩, readB_writeB, if_pos ⟨by omega, by omega⟩]
      rw [readB, List.getD_eq_getElem?_getD, List.getElem?_replicate, if_pos hc]
      rfl
    · rw [if_neg (by omega), readB, readB, List.getD_eq_getElem?_getD, List.getD_eq_getElem?_getD,
        List.getElem?_replicate, if_neg hc, List.getElem?_eq_none (by omega)]

/-! ## The claims -/

/-- Claim C1 (counterexample): the claim says a transport error is
propagated synchronously to the immediate caller of
configure/flush/setBrightness.  In fact the source discards the value
returned by `Tx` in all three operations: at a concrete device, the
result a caller receives from each operation on an always-failing bus is
identical to the result on an always-succeeding bus, so no error reaches
the caller. -/
theorem configure_display_setBrightness_ignore_bus_error :
    Configure busFail (New 0x70) = Configure busOk (New 0x70)
      ∧ Display busFail (New 0x70) = Display busOk (New 0x70)
      ∧ SetBrightness busFail (New 0x70) 7 = SetBrightness busOk (New 0x70) 7 :=
  ⟨rfl, rfl, rfl⟩

/-- Claim C1 (amended): a transport error is never retried and never
aborts anything, but it is not propagated: it is discarded.  Every bus
operation returns exactly the same device state, the same attempted
writes (so no retry), and the same values whatever the transport
answers. -/
theorem bus_result_never_observed (bus1 bus2 : Bus) (d : Device) (level : Nat) (now : Int) :
    Configure bus1 d = Configure bus2 d
      ∧ Display bus1 d = Display bus2 d
      ∧ SetBrightness bus1 d level = SetBrightness bus2 d level
      ∧ UpdateFade bus1 now d = UpdateFade bus2 now d
      ∧ DisplayFadeBlocking bus1 d = DisplayFadeBlocking bus2 d :=
  ⟨rfl, rfl, rfl, rfl, rfl⟩

/-- Claim C2: for display in 0..1, position in 0..7, pattern in 0..127,
any dot and any starting 16-byte buffer, writing a digit twice with
identical arguments yields the same buffer as writing it once. -/
theorem setDigit_idempotent (buf : Buf) (display position : Int) (pattern : Nat) (dot : Bool)
    (hbuf : buf.length = 16)
    (hd : display = 0 ∨ display = 1)
    (hp : 0 ≤ position ∧ position < 8)
    (_hpat : pattern ≤ 127) :
    setPattern (setPattern buf display position pattern dot) display position pattern dot
      = setPattern buf display position pattern dot := by
  have hg : ¬(display < 0 ∨ display ≥ (NumDisplays : Int) ∨ position < 0 ∨ position ≥ (MaxDigitsPerDisplay : Int)) := by
    simp only [NumDisplays, MaxDigitsPerDisplay]
    rcases hd with h | h <;> (subst h; push_neg; refine ⟨by omega, by omega, by omega, by omega⟩)
  simp only [setPattern, if_neg hg]
  have hoff : display.toNat * MaxDigitsPerDisplay + 8 ≤ buf.length := by
    rcases hd with h | h <;> (subst h; simp [MaxDigitsPerDisplay]; omega)
  have hoff2 : display.toNat * MaxDigitsPerDisplay + 8 ≤ (digitCore buf (display.toNat * MaxDigitsPerDisplay) position.toNat pattern dot).length := by
    rw [length_digitCore]; exact hoff
  have hpb0 : (1 <<< position.toNat) &&& (255 ^^^ (1 <<< position.toNat)) = 0 :=
    pbit_and_mask _ (by omega)
  apply buf_eq_of_readB_eq
  · rw [length_digitCore, length_digitCore]
  · intro j
    rw [readB_digitCore _ _ _ _ _ hoff2, readB_digitCore _ _ _ _ _ hoff]
    split_ifs <;>
      first
        | rfl
        | omega
        | (rw [or_and_cancel _ _ _ hpb0])
        | (rw [and_mask_self])

/-- Claim C2 witness. -/
theorem setDigit_idempotent_witness :
    setPattern (setPattern (List.replicate 16 0) 0 0 6 true) 0 0 6 true
      = setPattern (List.replicate 16 0) 0 0 6 true :=
  setDigit_idempotent (List.replicate 16 0) 0 0 6 true (by decide) (by decide)
    (by decide) (by decide)

/-- Claim C3: for position16 in 0..15, `SetDigit16` equals
`SetDigitOnDisplay` at display `position16 / 8`, position
`position16 % 8`. -/
theorem setDigit16_eq_setDigit_divmod (buf : Buf) (position16 : Int) (num : Nat) (dot : Bool)
    (h0 : 0 ≤ position16) (h15 : position16 ≤ 15) :
    setDigit16 buf position16 num dot
      = setDigitOnDisplay buf (position16 / 8) (position16 % 8) num dot := by
  simp only [setDigit16, MaxDigitsPerDisplay, NumDisplays]
  rw [if_neg (by push_cast; omega)]
  norm_num

/-- Claim C3 witness. -/
theorem setDigit16_eq_setDigit_divmod_witness :
    setDigit16 (List.replicate 16 0) 9 3 true
      = setDigitOnDisplay (List.replicate 16 0) (9 / 8) (9 % 8) 3 true :=
  setDigit16_eq_setDigit_divmod (List.replicate 16 0) 9 3 true (by decide) (by decide)

/-- Claim C4: out-of-range coordinates leave the buffer unchanged, with
no error signal, for `setPattern`, `SetDigitOnDisplay` and
`SetDigit16`. -/
theorem out_of_range_noop (buf : Buf) (display position position16 : Int)
    (pattern num num16 : Nat) (dot dot16 : Bool)
    (hdp : display < 0 ∨ 2 ≤ display ∨ position < 0 ∨ 8 ≤ position)
    (h16 : position16 < 0 ∨ 16 ≤ position16) :
    setPattern buf display position pattern dot = buf
      ∧ setDigitOnDisplay buf display position num dot = buf
      ∧ setDigit16 buf position16 num16 dot16 = buf := by
  refine ⟨?_, ?_, ?_⟩
  · simp only [setPattern, NumDisplays, MaxDigitsPerDisplay]
    rw [if_pos (by push_cast; omega)]
  · simp only [setDigitOnDisplay, NumDisplays, MaxDigitsPerDisplay]
    rw [if_pos (by push_cast; omega)]
  · simp only [setDigit16, NumDisplays, MaxDigitsPerDisplay]
    rw [if_pos (by push_cast; omega)]

/-- Claim C4 witness. -/
theorem out_of_range_noop_witness :
    setPattern (List.replicate 16 0) 2 0 5 true = List.replicate 16 0
      ∧ setDigitOnDisplay (List.replicate 16 0) 2 0 5 true = List.replicate 16 0
      ∧ setDigit16 (List.replicate 16 0) 16 3 false = List.replicate 16 0 :=
  out_of_range_noop (List.replicate 16 0) 2 0 16 5 5 3 true false
    (by decide) (by decide)

set_option maxRecDepth 40000 in
/-- Claim C5: on a fresh device, `WriteString 0 "1."` then
`WriteString 1 "2"` yields exactly the specified 16-byte buffer. -/
theorem writeString_regression_scenario :
    (WriteString (WriteString (New 0x70) 0 ['1', '.']) 1 ['2']).buffer
      = [0, 1, 1, 0, 0, 0, 0, 1, 1, 1, 0, 1, 1, 0, 1, 0] := by decide

/-- Claim C7: `LightUpAll` makes every buffer byte `0xFF`, and a flush
right after hands the transport one single write of 17 bytes: `0x00`
followed by sixteen `0xFF`. -/
theorem lightUpAll_fills_and_flushes_17_bytes (bus : Bus) (d : Device) (hbuf : d.buffer.length = 16) :
    (LightUpAll d).buffer = List.replicate 16 0xFF
      ∧ (Display bus (LightUpAll d)).2 = [(d.Address, 0x00 :: List.replicate 16 0xFF)]
      ∧ (Display bus (LightUpAll d)).2.map (fun m => m.2.length) = [17] := by
  have h1 : (LightUpAll d).buffer = List.replicate 16 0xFF := by
    simp only [LightUpAll]
    exact lightUpAllBuf_eq d.buffer hbuf
  have h2 : (Display bus (LightUpAll d)).2 = [(d.Address, 0x00 :: List.replicate 16 0xFF)] := by
    simp only [Display, h1]
    simp [LightUpAll]
  refine ⟨h1, h2, ?_⟩
  rw [h2]
  simp

/-- Claim C7 witness. -/
theorem lightUpAll_fills_and_flushes_17_bytes_witness :
    (LightUpAll (New 0x70)).buffer = List.replicate 16 0xFF
      ∧ (Display busOk (LightUpAll (New 0x70))).2 = [((New 0x70).Address, 0x00 :: List.replicate 16 0xFF)]
      ∧ (Display busOk (LightUpAll (New 0x70))).2.map (fun m => m.2.length) = [17] :=
  lightUpAll_fills_and_flushes_17_bytes busOk (New 0x70) (by decide)

/-- Claim C8: `SetBrightness` clamps the stored level to 0..15 and
issues exactly one command byte, the brightness command base OR the
clamped level; in particular level 20 stores 15 and level 0 writes the
bare command base. -/
theorem setBrightness_clamps_and_commands (bus : Bus) (d : Device) (level : Nat) :
    (SetBrightness bus d level).1.currentBrightness = (if level > 15 then 15 else level)
      ∧ (if level > 15 then 15 else level) ≤ 15
      ∧ (SetBrightness bus d level).2 = [(d.Address, [ht16k33SetBrightness ||| (if level > 15 then 15 else level)])]
      ∧ (SetBrightness bus d 20).1.currentBrightness = 15
      ∧ (SetBrightness bus d 0).2 = [(d.Address, [ht16k33SetBrightness ||| 0])] := by
  refine ⟨rfl, by split <;> omega, rfl, rfl, rfl⟩

theorem foldl_sbStep (bus : Bus) (ls : List Nat) : ∀ (d : Device) (acc : List Msg),
    ls.foldl (sbStep bus) (d, acc)
      = ({ d with currentBrightness := ls.foldl (fun _ k => if k > 15 then 15 else k) d.currentBrightness },
         acc ++ ls.map (fun k => (d.Address, [ht16k33SetBrightness ||| (if k > 15 then 15 else k)]))) := by
  induction ls with
  | nil => intro d acc; simp
  | cons k ks ih =>
    intro d acc
    rw [List.foldl_cons,
      show sbStep bus (d, acc) k
          = ({d with currentBrightness := if k > 15 then 15 else k},
             acc ++ [(d.Address, [ht16k33SetBrightness ||| (if k > 15 then 15 else k)])]) from rfl,
      ih]
    simp

theorem foldl_clamp_last (b0 m : Nat) :
    ((List.range (m + 1)).foldl (fun _ k => if k > 15 then 15 else k) b0)
      = if m > 15 then 15 else m := by
  rw [List.range_succ, List.foldl_append]
  rfl

theorem fadeOutLevels_clamp_foldl (n b0 : Nat) :
    ((fadeOutLevels n).foldl (fun _ k => if k > 15 then 15 else k) b0) = 0 := by
  rw [fadeOutLevels, List.range_succ, List.map_append, List.foldl_append]
  simp

/-- Claim C9 (amended): the blocking fade runs Out, then one flush, then
In synchronously and ends with brightness 15; but the fade-out direction
performs `currentBrightness + 1` brightness writes (16 only when
starting from maximum brightness), and the fade-in direction performs 16
writes plus one final pinning write of level 15. -/
theorem displayFadeBlocking_spec (bus : Bus) (d : Device) (hb : d.currentBrightness ≤ 15) :
    DisplayFadeBlocking bus d
      = ({ d with currentBrightness := 15 },
         ((List.range (d.currentBrightness + 1)).map
             (fun k => (d.Address, [ht16k33SetBrightness ||| (d.currentBrightness - k)])))
           ++ [(d.Address, 0x00 :: d.buffer)]
           ++ (List.range 16).map (fun k => (d.Address, [ht16k33SetBrightness ||| k]))
           ++ [(d.Address, [ht16k33SetBrightness ||| 15])]) := by
  simp only [DisplayFadeBlocking, foldl_sbStep, fadeOutLevels_clamp_foldl, Display]
  have h16 : ∀ (b0 : Nat), ((List.range 16).foldl (fun _ k => if k > 15 then 15 else k) b0) = 15 :=
    fun b0 => foldl_clamp_last b0 15
  simp only [h16]
  have hout : (fadeOutLevels d.currentBrightness).map
        (fun k => (d.Address, [ht16k33SetBrightness ||| (if k > 15 then 15 else k)]))
      = (List.range (d.currentBrightness + 1)).map
          (fun k => (d.Address, [ht16k33SetBrightness ||| (d.currentBrightness - k)])) := by
    rw [fadeOutLevels, List.map_map]
    apply List.map_congr_left
    intro a ha
    simp only [Function.comp_apply]
    have : ¬(d.currentBrightness - a > 15) := by omega
    rw [if_neg this]
  have hin : (List.range 16).map
        (fun k => (d.Address, [ht16k33SetBrightness ||| (if k > 15 then 15 else k)]))
      = (List.range 16).map (fun k => (d.Address, [ht16k33SetBrightness ||| k])) := by
    apply List.map_congr_left
    intro a ha
    rw [List.mem_range] at ha
    rw [if_neg (by omega)]
  rw [hout, hin]
  simp [SetBrightness]


set_option maxRecDepth 40000 in
/-- Claim C9 (counterexample): the claim says every blocking fade
performs 16 brightness-command writes fading out and 16 fading in.  On
the reachable device whose brightness is 0, the fade-out direction
writes exactly once, and the fade-in direction writes 17 times (16 loop
steps plus the final pin at 15). -/
theorem blocking_fade_not_16_out_writes :
    ((DisplayFadeBlocking busOk ((SetBrightness busOk (New 0x70) 0).1)).2.takeWhile
        (fun m => m.2.length == 1)).length = 1
      ∧ (((DisplayFadeBlocking busOk ((SetBrightness busOk (New 0x70) 0).1)).2.dropWhile
        (fun m => m.2.length == 1)).tail).length = 17
      ∧ (1 : Nat) ≠ 16 ∧ (17 : Nat) ≠ 16 :=
  ⟨by decide, by decide, by decide, by decide⟩

/-- Claim C9 witness. -/
theorem displayFadeBlocking_spec_witness :
    DisplayFadeBlocking busOk (New 0x70)
      = ({ New 0x70 with currentBrightness := 15 },
         ((List.range ((New 0x70).currentBrightness + 1)).map
             (fun k => ((New 0x70).Address, [ht16k33SetBrightness ||| ((New 0x70).currentBrightness - k)])))
           ++ [((New 0x70).Address, 0x00 :: (New 0x70).buffer)]
           ++ (List.range 16).map (fun k => ((New 0x70).Address, [ht16k33SetBrightness ||| k]))
           ++ [((New 0x70).Address, [ht16k33SetBrightness ||| 15])]) :=
  displayFadeBlocking_spec busOk (New 0x70) (by decide)

theorem uint8ofInt_ofNat (k : Nat) (hk : k < 256) : uint8ofInt (k : Int) = k := by
  simp only [uint8ofInt]
  omega

/-- One fading-out tick with positive step `j + 1`. -/
theorem updateFade_out_step (bus : Bus) (now : Int) (d : Device) (j : Nat)
    (hst : d.fadeState = FadeState.fadingOut)
    (hstep : d.fadeStep = ((j + 1 : Nat) : Int)) (hj : j + 1 ≤ 15)
    (ht : d.lastUpdateTime + d.fadeDelay ≤ now) :
    UpdateFade bus now d
      = ({ d with currentBrightness := j + 1, fadeStep := (j : Int), lastUpdateTime := now },
         [(d.Address, [ht16k33SetBrightness ||| (j + 1)])], true) := by
  rw [UpdateFade, if_neg (by rw [hst]; push_neg; exact ⟨by simp, by omega⟩)]
  simp only [hst, hstep, SetBrightness, uint8ofInt_ofNat (j + 1) (by omega),
    if_neg (show ¬(j + 1 > 15) by omega)]
  rw [if_neg (by push_cast; omega)]
  simp [IsFading]


/-- The fading-out tick at step 0: brightness write, then the single
buffer flush, then the transition to fading-in. -/
theorem updateFade_out_zero (bus : Bus) (now : Int) (d : Device)
    (hst : d.fadeState = FadeState.fadingOut)
    (hstep : d.fadeStep = 0)
    (ht : d.lastUpdateTime + d.fadeDelay ≤ now) :
    UpdateFade bus now d
      = ({ d with fadeState := FadeState.fadingIn, fadeStep := 0, currentBrightness := 0, lastUpdateTime := now },
         [(d.Address, [ht16k33SetBrightness ||| 0]), (d.Address, 0x00 :: d.buffer)], true) := by
  rw [UpdateFade, if_neg (by rw [hst]; push_neg; exact ⟨by simp, by omega⟩)]
  simp only [hst, hstep, SetBrightness, Display]
  rw [show uint8ofInt 0 = 0 from rfl, if_neg (show ¬(0 > 15) by omega), if_pos (by omega)]
  simp [IsFading]

/-- One fading-in tick with step `s ≤ 14`. -/
theorem updateFade_in_step (bus : Bus) (now : Int) (d : Device) (s : Nat)
    (hst : d.fadeState = FadeState.fadingIn)
    (hstep : d.fadeStep = (s : Int)) (hs : s ≤ 14)
    (ht : d.lastUpdateTime + d.fadeDelay ≤ now) :
    UpdateFade bus now d
      = ({ d with currentBrightness := s, fadeStep := ((s + 1 : Nat) : Int), lastUpdateTime := now },
         [(d.Address, [ht16k33SetBrightness ||| s])], true) := by
  rw [UpdateFade, if_neg (by rw [hst]; push_neg; exact ⟨by simp, by omega⟩)]
  simp only [hst, hstep, SetBrightness, uint8ofInt_ofNat s (by omega),
    if_neg (show ¬(s > 15) by omega)]
  rw [if_neg (by omega)]
  simp [IsFading]

/-- The final fading-in tick at step 15: the fade goes idle. -/
theorem updateFade_in_last (bus : Bus) (now : Int) (d : Device)
    (hst : d.fadeState = FadeState.fadingIn)
    (hstep : d.fadeStep = (15 : Int))
    (ht : d.lastUpdateTime + d.fadeDelay ≤ now) :
    UpdateFade bus now d
      = ({ d with fadeState := FadeState.idle, currentBrightness := 15, fadeStep := 16, lastUpdateTime := now },
         [(d.Address, [ht16k33SetBrightness ||| 15])], false) := by
  rw [UpdateFade, if_neg (by rw [hst]; push_neg; exact ⟨by simp, by omega⟩)]
  simp only [hst, hstep, SetBrightness]
  rw [show uint8ofInt 15 = 15 from rfl, if_neg (show ¬(15 > 15) by omega), if_pos (by omega)]
  simp [IsFading]


theorem spacedB_append (delay : Int) (l1 : List Int) : ∀ (l2 : List Int) (last : Int),
    spacedB last delay (l1 ++ l2) = true →
    spacedB last delay l1 = true ∧ spacedB (l1.getLastD last) delay l2 = true := by
  induction l1 with
  | nil =>
    intro l2 last h
    exact ⟨rfl, h⟩
  | cons a l1 ih =>
    intro l2 last h
    rw [List.cons_append, spacedB, Bool.and_eq_true] at h
    obtain ⟨h1, h2⟩ := h
    obtain ⟨h3, h4⟩ := ih l2 a h2
    refine ⟨?_, ?_⟩
    · rw [spacedB, Bool.and_eq_true]
      exact ⟨h1, h3⟩
    · rw [List.getLastD_cons]
      exact h4

theorem runTicks_append (bus : Bus) (l1 : List Int) : ∀ (l2 : List Int) (d : Device),
    runTicks bus (l1 ++ l2) d
      = ((runTicks bus l2 (runTicks bus l1 d).1).1,
         (runTicks bus l1 d).2 ++ (runTicks bus l2 (runTicks bus l1 d).1).2) := by
  induction l1 with
  | nil =>
    intro l2 d
    simp [runTicks]
  | cons t l1 ih =>
    intro l2 d
    rw [List.cons_append, runTicks, runTicks, ih]
    simp

/-- Running the fading-out phase: from step `k` (at most 15), `k + 1`
properly spaced ticks emit the brightness commands `k, k-1, ..., 0`
followed by exactly one buffer flush, and leave the device fading in at
step 0 with brightness 0. -/
theorem runTicks_out (bus : Bus) : ∀ (k : Nat) (d : Device) (ts : List Int),
    d.fadeState = FadeState.fadingOut →
    d.fadeStep = (k : Int) → k ≤ 15 →
    ts.length = k + 1 →
    spacedB d.lastUpdateTime d.fadeDelay ts = true →
    runTicks bus ts d
      = ({ d with fadeState := FadeState.fadingIn, fadeStep := 0, currentBrightness := 0, lastUpdateTime := ts.getLastD d.lastUpdateTime },
         ((List.range (k + 1)).map (fun i => (d.Address, [ht16k33SetBrightness ||| (k - i)])))
           ++ [(d.Address, 0x00 :: d.buffer)]) := by
  intro k
  induction k with
  | zero =>
    intro d ts hst hstep hk hlen hsp
    match ts with
    | [t] =>
      rw [spacedB, Bool.and_eq_true, decide_eq_true_eq] at hsp
      rw [runTicks, runTicks, updateFade_out_zero bus t d hst (by exact_mod_cast hstep) hsp.1]
      simp
    | [] => simp at hlen
  | succ j ih =>
    intro d ts hst hstep hk hlen hsp
    match ts with
    | t :: ts' =>
      rw [spacedB, Bool.and_eq_true, decide_eq_true_eq] at hsp
      rw [runTicks, updateFade_out_step bus t d j hst hstep hk hsp.1]
      have hrec := ih ({ d with currentBrightness := j + 1, fadeStep := (j : Int), lastUpdateTime := t }) ts'
        (by simp [hst]) (by simp) (by omega) (by simpa using hlen) (by simpa using hsp.2)
      dsimp only at hrec
      rw [hrec]
      simp only [Prod.mk.injEq]
      refine ⟨by rw [List.getLastD_cons], ?_⟩
      conv_lhs => rw [List.range_succ_eq_map]
      conv_rhs => rw [List.range_succ_eq_map, List.range_succ_eq_map]
      simp only [List.map_cons, List.map_map, List.cons_append, List.nil_append,
        Function.comp_apply, Nat.sub_zero, Nat.add_sub_cancel]
      congr 1
      congr 1
      congr 1
      apply List.map_congr_left
      intro a _
      simp only [Function.comp_apply]
      congr 3
      omega
    | [] => simp at hlen


/-- Running the fading-in phase: with `n` ticks left (step `16 - n`),
`n` properly spaced ticks emit the brightness commands
`16-n, ..., 15` and leave the device idle with brightness 15. -/
theorem runTicks_in (bus : Bus) : ∀ (n : Nat) (d : Device) (ts : List Int),
    1 ≤ n → n ≤ 16 →
    d.fadeState = FadeState.fadingIn →
    d.fadeStep = ((16 - n : Nat) : Int) →
    ts.length = n →
    spacedB d.lastUpdateTime d.fadeDelay ts = true →
    runTicks bus ts d
      = ({ d with fadeState := FadeState.idle, fadeStep := 16, currentBrightness := 15, lastUpdateTime := ts.getLastD d.lastUpdateTime },
         (List.range n).map (fun i => (d.Address, [ht16k33SetBrightness ||| (16 - n + i)]))) := by
  intro n
  induction n with
  | zero => omega
  | succ m ih =>
    intro d ts h1 h16 hst hstep hlen hsp
    match m, ts with
    | 0, [t] =>
      rw [spacedB, Bool.and_eq_true, decide_eq_true_eq] at hsp
      rw [runTicks, runTicks, updateFade_in_last bus t d hst (by exact_mod_cast hstep) hsp.1]
      simp [List.range_succ]
    | m' + 1, t :: ts' =>
      rw [spacedB, Bool.and_eq_true, decide_eq_true_eq] at hsp
      rw [runTicks, updateFade_in_step bus t d (16 - (m' + 2)) hst hstep (by omega) hsp.1]
      have hrec := ih ({ d with currentBrightness := 16 - (m' + 2), fadeStep := ((16 - (m' + 2) + 1 : Nat) : Int), lastUpdateTime := t }) ts'
        (by omega) (by omega) (by simp [hst])
        (by dsimp only; omega)
        (by simpa using hlen) (by simpa using hsp.2)
      dsimp only at hrec
      rw [hrec]
      simp only [Prod.mk.injEq]
      refine ⟨by rw [List.getLastD_cons], ?_⟩
      conv_rhs => rw [List.range_succ_eq_map]
      simp only [List.map_cons, List.map_map, List.cons_append, List.nil_append,
        Function.comp_apply, Nat.add_zero]
      congr 1
      apply List.map_congr_left
      intro a _
      simp only [Function.comp_apply]
      congr 3
      omega


/-- Claim C6: starting from Idle (with the brightness invariant and a
16-byte buffer), `StartFade` followed by `currentBrightness + 17`
`UpdateFade` ticks each spaced at least the configured delay apart ends
with fade state Idle and stored brightness 15; the full write trace is
the fade-out brightness commands, then exactly one buffer flush (at the
FadingOut-to-FadingIn transition, when the step counter would go below
0), then the 16 fade-in brightness commands — in particular exactly one
17-byte flush occurs. -/
theorem nonblocking_fade_run (bus : Bus) (d : Device) (t0 delay : Int) (ts : List Int)
    (hidle : d.fadeState = FadeState.idle)
    (hb : d.currentBrightness ≤ 15)
    (hbuf : d.buffer.length = 16)
    (hlen : ts.length = d.currentBrightness + 17)
    (hsp : spacedB t0 delay ts = true) :
    (runTicks bus ts (StartFade t0 delay d)).1.fadeState = FadeState.idle
      ∧ (runTicks bus ts (StartFade t0 delay d)).1.currentBrightness = 15
      ∧ (runTicks bus ts (StartFade t0 delay d)).2
          = ((List.range (d.currentBrightness + 1)).map
                (fun i => (d.Address, [ht16k33SetBrightness ||| (d.currentBrightness - i)])))
            ++ [(d.Address, 0x00 :: d.buffer)]
            ++ (List.range 16).map (fun i => (d.Address, [ht16k33SetBrightness ||| i]))
      ∧ ((runTicks bus ts (StartFade t0 delay d)).2.countP (fun m => m.2.length == 17)) = 1 := by
  have hSF : StartFade t0 delay d
      = { d with fadeDelay := delay, fadeState := FadeState.fadingOut, fadeStep := (d.currentBrightness : Int), lastUpdateTime := t0 } := by
    rw [StartFade, if_neg (by simp [hidle])]
  have hts : ts = ts.take (d.currentBrightness + 1) ++ ts.drop (d.currentBrightness + 1) :=
    (List.take_append_drop _ _).symm
  have hlen1 : (ts.take (d.currentBrightness + 1)).length = d.currentBrightness + 1 := by
    rw [List.length_take]; omega
  have hlen2 : (ts.drop (d.currentBrightness + 1)).length = 16 := by
    rw [List.length_drop]; omega
  obtain ⟨hsp1, hsp2⟩ := spacedB_append delay (ts.take (d.currentBrightness + 1))
    (ts.drop (d.currentBrightness + 1)) t0 (by rw [← hts]; exact hsp)
  have hout := runTicks_out bus d.currentBrightness
    ({ d with fadeDelay := delay, fadeState := FadeState.fadingOut, fadeStep := (d.currentBrightness : Int), lastUpdateTime := t0 })
    (ts.take (d.currentBrightness + 1))
    (by simp) (by simp) hb hlen1 (by simpa using hsp1)
  dsimp only at hout
  have hin := runTicks_in bus 16
    ({ d with fadeDelay := delay, fadeState := FadeState.fadingIn, fadeStep := 0, currentBrightness := 0, lastUpdateTime := (ts.take (d.currentBrightness + 1)).getLastD t0 })
    (ts.drop (d.currentBrightness + 1))
    (by omega) (by omega) (by simp) (by simp) hlen2 (by simpa using hsp2)
  dsimp only at hin
  rw [hSF, hts, runTicks_append, hout, hin]
  dsimp only
  refine ⟨rfl, rfl, ?_, ?_⟩
  · simp only [Nat.sub_self, Nat.zero_add, List.append_assoc]
  · have hz1 : ((List.range (d.currentBrightness + 1)).map
        (fun i => (d.Address, [ht16k33SetBrightness ||| (d.currentBrightness - i)]))).countP
          (fun m => m.2.length == 17) = 0 := by
      rw [List.countP_eq_zero]
      intro a ha
      rw [List.mem_map] at ha
      obtain ⟨i, _, rfl⟩ := ha
      simp
    have hz2 : ((List.range 16).map
        (fun i => (d.Address, [ht16k33SetBrightness ||| (16 - 16 + i)]))).countP
          (fun m => m.2.length == 17) = 0 := by
      rw [List.countP_eq_zero]
      intro a ha
      rw [List.mem_map] at ha
      obtain ⟨i, _, rfl⟩ := ha
      simp
    rw [List.countP_append, List.countP_append, hz1, hz2]
    simp [hbuf]


/-- Claim C6 witness. -/
theorem nonblocking_fade_run_witness :
    (runTicks busOk [1, 2, 3, 4, 5, 6, 7, 8, 9, 10, 11, 12, 13, 14, 15, 16, 17, 18, 19, 20, 21, 22, 23, 24, 25, 26, 27, 28, 29, 30, 31, 32] (StartFade 0 1 (New 0x70))).1.fadeState = FadeState.idle
      ∧ (runTicks busOk [1, 2, 3, 4, 5, 6, 7, 8, 9, 10, 11, 12, 13, 14, 15, 16, 17, 18, 19, 20, 21, 22, 23, 24, 25, 26, 27, 28, 29, 30, 31, 32] (StartFade 0 1 (New 0x70))).1.currentBrightness = 15
      ∧ (runTicks busOk [1, 2, 3, 4, 5, 6, 7, 8, 9, 10, 11, 12, 13, 14, 15, 16, 17, 18, 19, 20, 21, 22, 23, 24, 25, 26, 27, 28, 29, 30, 31, 32] (StartFade 0 1 (New 0x70))).2
          = ((List.range ((New 0x70).currentBrightness + 1)).map
                (fun i => ((New 0x70).Address, [ht16k33SetBrightness ||| ((New 0x70).currentBrightness - i)])))
            ++ [((New 0x70).Address, 0x00 :: (New 0x70).buffer)]
            ++ (List.range 16).map (fun i => ((New 0x70).Address, [ht16k33SetBrightness ||| i]))
      ∧ ((runTicks busOk [1, 2, 3, 4, 5, 6, 7, 8, 9, 10, 11, 12, 13, 14, 15, 16, 17, 18, 19, 20, 21, 22, 23, 24, 25, 26, 27, 28, 29, 30, 31, 32] (StartFade 0 1 (New 0x70))).2.countP (fun m => m.2.length == 17)) = 1 :=
  nonblocking_fade_run busOk (New 0x70) 0 1
    [1, 2, 3, 4, 5, 6, 7, 8, 9, 10, 11, 12, 13, 14, 15, 16, 17, 18, 19, 20, 21, 22, 23, 24, 25, 26, 27, 28, 29, 30, 31, 32]
    rfl (by decide) (by decide) (by decide) (by decide)

theorem setBrightness_le (bus : Bus) (d : Device) (n : Nat) :
    (SetBrightness bus d n).1.currentBrightness ≤ 15 := by
  simp only [SetBrightness]
  split <;> omega

theorem displayFadeBlocking_brightness (bus : Bus) (d : Device) :
    (DisplayFadeBlocking bus d).1.currentBrightness = 15 := by
  simp only [DisplayFadeBlocking, SetBrightness]
  simp

theorem lightUpAllFadeBlocking_brightness (bus : Bus) (d : Device) :
    (LightUpAllFadeBlocking bus d).1.currentBrightness = 15 := by
  simp only [LightUpAllFadeBlocking, foldl_sbStep]
  rw [show (16 : Nat) = 15 + 1 from rfl, foldl_clamp_last]
  simp

theorem updateFade_brightness_le (bus : Bus) (now : Int) (d : Device)
    (h : d.currentBrightness ≤ 15) :
    (UpdateFade bus now d).1.currentBrightness ≤ 15 := by
  rw [UpdateFade]
  split
  · exact h
  · dsimp only
    split
    · simp only [SetBrightness, Display]
      split
      · dsimp only; split <;> omega
      · dsimp only; split <;> omega
    · simp only [SetBrightness]
      split
      · dsimp only; split <;> omega
      · dsimp only; split <;> omega
    · exact h

theorem applyOp_brightness_le (bus : Bus) (d : Device) (op : Op)
    (h : d.currentBrightness ≤ 15) :
    (applyOp bus d op).currentBrightness ≤ 15 := by
  cases op with
  | configure =>
    simp only [applyOp, Configure]
    exact setBrightness_le bus d 15
  | display =>
    simp only [applyOp, Display]
    exact h
  | setBrightness level => exact setBrightness_le bus d level
  | displayFadeBlocking =>
    simp only [applyOp]
    rw [displayFadeBlocking_brightness]
  | lightUpAllFadeBlocking =>
    simp only [applyOp]
    rw [lightUpAllFadeBlocking_brightness]
  | clearFadeOnDisplayBlocking disp =>
    simp only [applyOp, ClearFadeOnDisplayBlocking]
    split
    · exact h
    · rw [displayFadeBlocking_brightness]
  | clearAllFadeBlocking =>
    simp only [applyOp, ClearAllFadeBlocking]
    rw [displayFadeBlocking_brightness]
  | startFade now delay =>
    simp only [applyOp, StartFade]
    split
    · exact h
    · exact h
  | updateFade now => exact updateFade_brightness_le bus now d h
  | clearAll =>
    simp only [applyOp, ClearAll]
    exact h
  | lightUpAll =>
    simp only [applyOp, LightUpAll]
    exact h
  | clearOnDisplay disp =>
    simp only [applyOp, ClearOnDisplay]
    exact h
  | setDigitOnDisplay disp pos num dot =>
    simp only [applyOp, SetDigitOnDisplay]
    exact h
  | setDigit16 pos num dot =>
    simp only [applyOp, SetDigit16]
    exact h
  | writeString disp s =>
    simp only [applyOp, WriteString]
    exact h

/-- Claim C10: starting from `New` (brightness 15) and applying any
sequence of public operations (configure, brightness changes, blocking
and non-blocking fades, buffer mutations) with any transport, the stored
brightness always stays in 0..15: `New` initializes it to 15 and every
writer clamps. -/
theorem brightness_invariant (address : Nat) (bus : Bus) (ops : List Op) :
    (New address).currentBrightness = 15
      ∧ (ops.foldl (applyOp bus) (New address)).currentBrightness ≤ 15 := by
  refine ⟨rfl, ?_⟩
  have hrun : ∀ (l : List Op) (d : Device), d.currentBrightness ≤ 15 →
      (l.foldl (applyOp bus) d).currentBrightness ≤ 15 := by
    intro l
    induction l with
    | nil => intro d h; exact h
    | cons op l ih =>
      intro d h
      rw [List.foldl_cons]
      exact ih _ (applyOp_brightness_le bus d op h)
  exact hrun ops (New address) (le_refl 15)

end HT16K33
